import Mathlib

/-! # vbeterm: the callbacks of `src/term.c`

A shallow embedding of the signal callbacks and of `get_child_environment`
of `src/term.c`.  Calls into GTK, VTE and Pango are recorded in a trace of
`Call` events, in program order; the state a callback can change (the font of
the terminal widget) is passed explicitly.
-/

namespace Vbeterm

/-! ## Machine integers -/

/-- Range of the 32-bit signed `gint`. -/
def is_gint (x : Int) : Prop := -2147483648 ≤ x ∧ x ≤ 2147483647

instance (x : Int) : Decidable (is_gint x) := by
  unfold is_gint; exact inferInstance

/-- Two-complement wrap of an integer to the 32-bit signed `gint`. -/
def wrap_gint (x : Int) : Int := (x + 2147483648) % 4294967296 - 2147483648

/-- Addition of `gint` values. -/
def gint_add (a b : Int) : Int := wrap_gint (a + b)

/-- Multiplication of `gint` values. -/
def gint_mul (a b : Int) : Int := wrap_gint (a * b)

/-- Bit pattern of a `gint`, as the unsigned 32-bit number with the same bits. -/
def gint_bits (s : Int) : Nat := (s % 4294967296).toNat

/-! ## Wait status (`<sys/wait.h>`) -/

/-- Modelled from the spec: `WTERMSIG` of `<sys/wait.h>` (a C library header,
not part of `src/`), with the formula `s & 0x7f`. -/
def WTERMSIG (s : Int) : Int := ((gint_bits s) &&& 0x7f : Nat)

/-- Modelled from the spec: `WIFEXITED` of `<sys/wait.h>` (a C library header,
not part of `src/`), with the formula `(s & 0x7f) == 0`. -/
def WIFEXITED (s : Int) : Bool := (gint_bits s) &&& 0x7f == 0

/-- Modelled from the spec: `WEXITSTATUS` of `<sys/wait.h>` (a C library
header, not part of `src/`), with the formula `(s & 0xff00) >> 8`. -/
def WEXITSTATUS (s : Int) : Int := ((((gint_bits s) &&& 0xff00) >>> 8 : Nat))

/-- Modelled from the spec: `WIFSIGNALED` of `<sys/wait.h>` (a C library
header, not part of `src/`): the low 7 bits are neither 0 nor 0x7f. -/
def WIFSIGNALED (s : Int) : Bool :=
  (gint_bits s) &&& 0x7f != 0 && (gint_bits s) &&& 0x7f != 0x7f

/-! ## Fonts and the terminal widget -/

/-- Font description of Pango: its size in Pango units and its other
attributes. -/
structure PangoFontDescription where
  family : String
  style : Nat
  variant : Nat
  weight : Nat
  stretch : Nat
  size : Int
deriving DecidableEq, Repr

/-- The part of a `VteTerminal` the callbacks read or write: the font
description (`NULL` is `none`) and the window title the terminal reports
(`NULL` is `none`). -/
structure VteTerminal where
  font : Option PangoFontDescription
  window_title : Option String
deriving DecidableEq, Repr

/-- Calls into GTK, GLib and VTE, and into `dabbrev_expand` and
`dabbrev_stop`, which `term.h` declares and `src/` does not define. -/
inductive Call where
  | vte_terminal_set_font (descr : PangoFontDescription)
  | vte_terminal_set_font_from_string (name : String)
  | dabbrev_expand
  | dabbrev_stop
  | gtk_window_set_title (title : String)
  | g_application_command_line_set_exit_status (exit_status : Int)
  | g_object_unref
  | gtk_widget_destroy
deriving DecidableEq, Repr

/-- What `term.c` takes from headers that are not part of `src/`:
`PACKAGE_NAME` (build configuration), `TERM_FONT` (`term.h`), `PANGO_SCALE`
(Pango), the modifier masks and key symbols of GDK, and the effect on the
widget of `vte_terminal_set_font_from_string`, `dabbrev_expand` and
`dabbrev_stop`. -/
structure Deps where
  PACKAGE_NAME : String
  TERM_FONT : String
  PANGO_SCALE : Int
  GDK_CONTROL_MASK : Nat
  GDK_MOD1_MASK : Nat
  GDK_plus : Nat
  GDK_minus : Nat
  GDK_equal : Nat
  GDK_slash : Nat
  font_from_string : VteTerminal → String → VteTerminal
  expand : VteTerminal → VteTerminal
  stop : VteTerminal → VteTerminal

/-- State of the widget after a sequence of calls, and the calls made. -/
structure Run where
  terminal : VteTerminal
  calls : List Call
deriving DecidableEq

/-- Outcome of a signal callback: the widget, the calls made, and the
`gboolean` returned. -/
structure Outcome where
  terminal : VteTerminal
  calls : List Call
  ret : Bool
deriving DecidableEq

/-- Modelled from the spec: the call `vte_terminal_get_font` (VTE, not part of
`src/`) gives the font description of the widget, `NULL` when it has none. -/
def vte_terminal_get_font (terminal : VteTerminal) : Option PangoFontDescription :=
  terminal.font

/-- Modelled from the spec: the call `pango_font_description_copy` (Pango, not
part of `src/`) gives a copy of the description, `NULL` for `NULL`. -/
def pango_font_description_copy (descr : Option PangoFontDescription) :
    Option PangoFontDescription := descr

/-- Modelled from the spec: the call `pango_font_description_get_size` (Pango,
not part of `src/`) gives the size of the description. -/
def pango_font_description_get_size (descr : PangoFontDescription) : Int := descr.size

/-- Modelled from the spec: the call `pango_font_description_set_size` (Pango,
not part of `src/`) sets the size of the description and keeps its other
attributes. -/
def pango_font_description_set_size (descr : PangoFontDescription) (size : Int) :
    PangoFontDescription := { descr with size := size }

/-- Modelled from the spec: the call `vte_terminal_set_font` (VTE, not part of
`src/`) makes the description the font of the widget. -/
def vte_terminal_set_font (terminal : VteTerminal) (descr : PangoFontDescription) :
    VteTerminal := { terminal with font := some descr }

/-- Function `set_font_size` (term.c:26-37).  `current + delta * PANGO_SCALE` is
`gint` arithmetic. -/
def set_font_size (D : Deps) (terminal : VteTerminal) (delta : Int) : Run :=
  match pango_font_description_copy (vte_terminal_get_font terminal) with
  | none => { terminal := terminal, calls := [] }
  | some descr =>
    let current := pango_font_description_get_size descr
    let descr := pango_font_description_set_size descr
      (gint_add current (gint_mul delta D.PANGO_SCALE))
    { terminal := vte_terminal_set_font terminal descr,
      calls := [Call.vte_terminal_set_font descr] }

/-- Function `reset_font_size` (term.c:39-45). -/
def reset_font_size (D : Deps) (terminal : VteTerminal) : Run :=
  let t1 := D.font_from_string terminal D.TERM_FONT
  let r := set_font_size D t1 0
  { terminal := r.terminal,
    calls := Call.vte_terminal_set_font_from_string D.TERM_FONT :: r.calls }

/-- Callback `on_dpi_changed` (term.c:47-55). -/
def on_dpi_changed (D : Deps) (user_data : VteTerminal) : Outcome :=
  let terminal := user_data
  let r := set_font_size D terminal 0
  { terminal := r.terminal, calls := r.calls, ret := true }

/-- Callback `on_char_size_changed` (term.c:57-62); `width` and `height` are
unused. -/
def on_char_size_changed (D : Deps) (terminal : VteTerminal) (_width _height : Nat) :
    Outcome :=
  let r := set_font_size D terminal 0
  { terminal := r.terminal, calls := r.calls, ret := true }

/-- Modelled from the spec: the call `vte_terminal_get_window_title` (VTE, not
part of `src/`) gives the title the terminal reports, `NULL` when there is
none. -/
def vte_terminal_get_window_title (terminal : VteTerminal) : Option String :=
  terminal.window_title

/-- Callback `on_title_changed` (term.c:64-71); `a ?: b` is `a` when `a` is not
`NULL`, whatever the string holds. -/
def on_title_changed (D : Deps) (terminal : VteTerminal) : Outcome :=
  let title := match vte_terminal_get_window_title terminal with
    | some s => s
    | none => D.PACKAGE_NAME
  { terminal := terminal, calls := [Call.gtk_window_set_title title], ret := true }

/-- Callback `on_child_exit` (term.c:73-90). -/
def on_child_exit (term : VteTerminal) (status : Int) : Outcome :=
  let c1 :=
    if WIFEXITED status then
      Call.g_application_command_line_set_exit_status (WEXITSTATUS status)
    else if WIFSIGNALED status then
      Call.g_application_command_line_set_exit_status (128 + WTERMSIG status)
    else
      Call.g_application_command_line_set_exit_status 127
  { terminal := term, calls := [c1, Call.g_object_unref, Call.gtk_widget_destroy],
    ret := true }

/-- A key event of GDK: the modifier state and the key symbol. -/
structure GdkEventKey where
  state : Nat
  keyval : Nat
deriving DecidableEq, Repr

/-- Callback `on_key_press` (term.c:92-116).  Each `switch` is the chain of
comparisons with its case labels; a key that matches no label leaves the
`if` and reaches `dabbrev_stop`. -/
def on_key_press (D : Deps) (terminal : VteTerminal) (event : GdkEventKey) : Outcome :=
  let fallthrough : Outcome :=
    { terminal := D.stop terminal, calls := [Call.dabbrev_stop], ret := false }
  if event.state &&& D.GDK_CONTROL_MASK ≠ 0 then
    if event.keyval = D.GDK_plus then
      let r := set_font_size D terminal 1
      { terminal := r.terminal, calls := r.calls, ret := true }
    else if event.keyval = D.GDK_minus then
      let r := set_font_size D terminal (-1)
      { terminal := r.terminal, calls := r.calls, ret := true }
    else if event.keyval = D.GDK_equal then
      let r := reset_font_size D terminal
      { terminal := r.terminal, calls := r.calls, ret := true }
    else fallthrough
  else if event.state &&& D.GDK_MOD1_MASK ≠ 0 then
    if event.keyval = D.GDK_slash then
      { terminal := D.expand terminal, calls := [Call.dabbrev_expand], ret := true }
    else fallthrough
  else fallthrough

/-! ## The environment of the child (`get_child_environment`) -/

/-- The environment of the parent process as GLib shows it: the names that
`g_listenv` lists, in order, and the lookup `g_getenv` (`NULL` is `none`). -/
structure Environ where
  names : List String
  getenv : String → Option String

/-- A cell of a `gchar **` array: not yet written, `NULL`, or a string. -/
inductive Slot where
  | uninit
  | null
  | str (s : String)
deriving DecidableEq, Repr

/-- The call `g_new (gchar *, len)`: a block of `len` cells, none of them
written. -/
def g_new (len : Nat) : List Slot := List.replicate len Slot.uninit

/-- The assignment `result[i] = v`.  It fails (`none`) when `i` is not an index
of the block, so a run that yields `some` wrote only inside the block. -/
def store (result : List Slot) (i : Nat) (v : Slot) : Option (List Slot) :=
  if i < result.length then some (result.set i v) else none

/-- The loop of `get_child_environment` (term.c:129-134) over the names that
remain, from the state `(n, result)`. -/
def copy_environment (getenv : String → Option String) :
    List String → Nat × List Slot → Option (Nat × List Slot)
  | [], st => some st
  | p :: ps, (n, result) =>
    if p = "COLORTERM" then copy_environment getenv ps (n, result)
    else
      match getenv p with
      | some value =>
        match store result n (Slot.str (p ++ "=" ++ value)) with
        | some result1 => copy_environment getenv ps (n + 1, result1)
        | none => none
      | none => copy_environment getenv ps (n, result)

/-- Function `get_child_environment` (term.c:118-141): the array it returns, or
`none` when a write falls outside the allocated block.  `n` is a `guint`; the
environment of a process has far fewer than `2 ^ 32 - 2` entries, so `n + 2`
is the sum in `Nat`. -/
def get_child_environment (D : Deps) (E : Environ) : Option (List Slot) :=
  let env := E.names
  let n := env.length
  let result := g_new (n + 2)
  match copy_environment E.getenv env (0, result) with
  | none => none
  | some (n, result) =>
    match store result n (Slot.str ("COLORTERM=" ++ D.PACKAGE_NAME)) with
    | none => none
    | some result1 =>
      let n := n + 1
      store result1 n Slot.null

/-- The strings of a `NULL`-terminated string array, up to the terminator;
`none` when an unwritten cell or the end of the block comes first. -/
def strv : List Slot → Option (List String)
  | [] => none
  | Slot.null :: _ => some []
  | Slot.uninit :: _ => none
  | Slot.str s :: rest =>
    match strv rest with
    | some l => some (s :: l)
    | none => none

/-- The name of an environment entry `name=value`: what stands before the
first `=`. -/
def entry_name (entry : String) : String :=
  String.mk (entry.data.takeWhile (fun c => c != '='))

/-- The entries `name=value` of a listing under a lookup: one for each name
that is not `COLORTERM` and has a value, in listing order. -/
def inherited (getenv : String → Option String) (names : List String) : List String :=
  (names.filter (fun p => p ≠ "COLORTERM")).filterMap
    (fun p => (getenv p).map (fun value => p ++ "=" ++ value))

/-- The inherited variables as the specification words them: `name=value` for
each listed name that is not `COLORTERM` and has a value, in listing order. -/
def forwarded (E : Environ) : List String :=
  (E.names.filter (fun p => p ≠ "COLORTERM")).filterMap
    (fun p => (E.getenv p).map (fun value => p ++ "=" ++ value))

/-- The widget after `k` calls of `set_font_size` with the same `delta`. -/
def zoom (D : Deps) (delta : Int) : Nat → VteTerminal → VteTerminal
  | 0, terminal => terminal
  | k + 1, terminal => zoom D delta k (set_font_size D terminal delta).terminal

/-- Exit statuses that a trace sets on the command-line object, in order. -/
def exit_statuses : List Call → List Int
  | [] => []
  | Call.g_application_command_line_set_exit_status v :: cs => v :: exit_statuses cs
  | _ :: cs => exit_statuses cs

/-- Headers with the values of GDK and Pango (`GDK_CONTROL_MASK = 1 << 2`,
`GDK_MOD1_MASK = 1 << 3`, the Latin-1 key symbols, `PANGO_SCALE = 1024`), a
sample package name and font, and library calls that leave the widget as it
is; used to instantiate the results below. -/
def sample_deps : Deps where
  PACKAGE_NAME := "vbeterm"
  TERM_FONT := "Monospace 10"
  PANGO_SCALE := 1024
  GDK_CONTROL_MASK := 4
  GDK_MOD1_MASK := 8
  GDK_plus := 0x2b
  GDK_minus := 0x2d
  GDK_equal := 0x3d
  GDK_slash := 0x2f
  font_from_string := fun t _ => t
  expand := fun t => t
  stop := fun t => t

/-- A sample font description, of size 10 points. -/
def sample_font : PangoFontDescription :=
  { family := "Monospace", style := 0, variant := 0, weight := 400, stretch := 4,
    size := 10240 }

/-- A sample widget with a font and no title. -/
def sample_terminal : VteTerminal := { font := some sample_font, window_title := none }

/-- A sample parent environment, with `COLORTERM` set. -/
def sample_environ : Environ where
  names := ["HOME", "COLORTERM", "GHOST", "TERM"]
  getenv := fun p =>
    if p = "HOME" then some "/root"
    else if p = "COLORTERM" then some "xterm"
    else if p = "TERM" then some "vt100"
    else none

/-! ## Auxiliary facts -/

theorem wrap_gint_of_is_gint (x : Int) (h : is_gint x) : wrap_gint x = x := by
  unfold is_gint at h
  unfold wrap_gint
  omega

theorem low7_lt (x : Nat) : x &&& 0x7f < 128 := by
  have h := Nat.and_pow_two_sub_one_eq_mod x 7
  norm_num at h
  rw [h]
  omega

theorem exit_byte_le (x : Nat) : (x &&& 0xff00) >>> 8 ≤ 255 := by
  have h : x &&& 0xff00 ≤ 0xff00 := Nat.and_le_right
  rw [Nat.shiftRight_eq_div_pow]
  norm_num
  omega

theorem gint_bits_shifted (code : Nat) (h : code < 256) :
    gint_bits ((code : Int) * 256) = code * 256 := by
  unfold gint_bits
  omega

theorem low7_shifted (code : Nat) : (code * 256) &&& 0x7f = 0 := by
  have h := Nat.and_pow_two_sub_one_eq_mod (code * 256) 7
  norm_num at h
  rw [h]
  omega

theorem shiftRight_land (x y k : Nat) : (x &&& y) >>> k = (x >>> k) &&& (y >>> k) := by
  apply Nat.eq_of_testBit_eq
  intro i
  simp [Nat.testBit_shiftRight, Nat.testBit_and]

theorem exit_byte_shifted (code : Nat) (h : code < 256) :
    ((code * 256) &&& 0xff00) >>> 8 = code := by
  rw [shiftRight_land]
  have h1 : (code * 256) >>> 8 = code := by
    rw [Nat.shiftRight_eq_div_pow]; norm_num
  have h2 : (0xff00 : Nat) >>> 8 = 2 ^ 8 - 1 := by decide
  rw [h1, h2, Nat.and_pow_two_sub_one_eq_mod]
  norm_num
  omega

/-! ## Exit status of the child (`on_child_exit`) -/

theorem exit_statuses_on_child_exit (term : VteTerminal) (status : Int) :
    exit_statuses (on_child_exit term status).calls =
      [if WIFEXITED status then WEXITSTATUS status
       else if WIFSIGNALED status then 128 + WTERMSIG status
       else 127] := by
  unfold on_child_exit
  by_cases h1 : WIFEXITED status = true
  · simp [h1, exit_statuses]
  · by_cases h2 : WIFSIGNALED status = true
    · simp [h1, h2, exit_statuses]
    · simp [h1, h2, exit_statuses]

/-- C1: for every wait status, `on_child_exit` sets exactly one exit status on
the command-line object: `WEXITSTATUS(status)` when `WIFEXITED(status)`,
otherwise `128 + WTERMSIG(status)` when `WIFSIGNALED(status)`, otherwise 127;
a child that exits normally with code `code` (status `code << 8`) gives `code`.
The handler then drops its reference, destroys the window and returns TRUE. -/
theorem on_child_exit_sets_exit_status (term : VteTerminal) (status : Int) :
    exit_statuses (on_child_exit term status).calls =
        [if WIFEXITED status then WEXITSTATUS status
         else if WIFSIGNALED status then 128 + WTERMSIG status
         else 127]
      ∧ (∀ code : Nat, code < 256 →
          exit_statuses (on_child_exit term ((code : Int) * 256)).calls = [(code : Int)])
      ∧ (on_child_exit term status).ret = true := by
  refine ⟨exit_statuses_on_child_exit term status, ?_, rfl⟩
  · intro code hc
    have hx : WIFEXITED ((code : Int) * 256) = true := by
      unfold WIFEXITED
      rw [gint_bits_shifted code hc, low7_shifted]
      rfl
    have hv : WEXITSTATUS ((code : Int) * 256) = (code : Int) := by
      unfold WEXITSTATUS
      rw [gint_bits_shifted code hc, exit_byte_shifted code hc]
    simp [on_child_exit, hx, hv, exit_statuses]

/-- C1, instantiated: a child that exits with code 3 (wait status `0x300`)
gives exit status 3. -/
theorem on_child_exit_sets_exit_status_witness :
    (3 : Nat) < 256 ∧
      exit_statuses (on_child_exit sample_terminal (((3 : Nat) : Int) * 256)).calls =
        [((3 : Nat) : Int)] :=
  ⟨by decide, (on_child_exit_sets_exit_status sample_terminal 0).2.1 3 (by decide)⟩

/-- C8: with the wait-status formulas of `<sys/wait.h>`, for every integer
wait status the one exit status that `on_child_exit` sets lies in 0..255; when
the status is a signalled one it lies in 129..254; `WIFEXITED` and
`WIFSIGNALED` are never both true, and testing them in the other order gives
the same exit status. -/
theorem on_child_exit_status_range (term : VteTerminal) (status : Int) :
    ∃ v : Int, exit_statuses (on_child_exit term status).calls = [v]
      ∧ 0 ≤ v ∧ v ≤ 255
      ∧ (WIFSIGNALED status = true → 129 ≤ v ∧ v ≤ 254)
      ∧ ¬ (WIFEXITED status = true ∧ WIFSIGNALED status = true)
      ∧ v = (if WIFSIGNALED status then 128 + WTERMSIG status
             else if WIFEXITED status then WEXITSTATUS status
             else 127) := by
  have hlow := low7_lt (gint_bits status)
  have hbyte := exit_byte_le (gint_bits status)
  refine ⟨_, exit_statuses_on_child_exit term status, ?_⟩
  by_cases h0 : gint_bits status &&& 0x7f = 0
  · have h1 : WIFEXITED status = true := by simp [WIFEXITED, h0]
    have h2 : WIFSIGNALED status = false := by simp [WIFSIGNALED, h0]
    simp only [h1, h2, Bool.false_eq_true, if_false, if_true]
    unfold WEXITSTATUS
    refine ⟨by omega, by omega, by simp, by simp, by simp⟩
  · have h1 : WIFEXITED status = false := by simp [WIFEXITED, h0]
    by_cases h7 : gint_bits status &&& 0x7f = 0x7f
    · have h2 : WIFSIGNALED status = false := by simp [WIFSIGNALED, h7]
      simp [h1, h2]
    · have h2 : WIFSIGNALED status = true := by simp [WIFSIGNALED, h0, h7]
      simp only [h1, h2, Bool.false_eq_true, if_false, if_true]
      unfold WTERMSIG
      refine ⟨by omega, by omega, fun _ => ⟨by omega, by omega⟩, by simp, by simp⟩

/-- C8, instantiated: for a child killed by signal 9 the exit status set lies
in 129..254. -/
theorem on_child_exit_status_range_witness :
    WIFSIGNALED 9 = true ∧
      ∃ v : Int, exit_statuses (on_child_exit sample_terminal 9).calls = [v]
        ∧ 129 ≤ v ∧ v ≤ 254 := by
  obtain ⟨v, hv, _, _, hs, _, _⟩ := on_child_exit_status_range sample_terminal 9
  exact ⟨by decide, v, hv, hs (by decide)⟩

/-! ## Window title (`on_title_changed`) -/

/-- C6: `on_title_changed` sets the window title to the title the terminal
reports when there is one (the empty string included) and to `PACKAGE_NAME`
when there is none; it makes no other call and returns TRUE. -/
theorem on_title_changed_sets_title (D : Deps) (terminal : VteTerminal) :
    (∀ title : String, terminal.window_title = some title →
        (on_title_changed D terminal).calls = [Call.gtk_window_set_title title])
      ∧ (terminal.window_title = some "" →
        (on_title_changed D terminal).calls = [Call.gtk_window_set_title ""])
      ∧ (terminal.window_title = none →
        (on_title_changed D terminal).calls = [Call.gtk_window_set_title D.PACKAGE_NAME])
      ∧ (on_title_changed D terminal).ret = true
      ∧ (on_title_changed D terminal).terminal = terminal := by
  refine ⟨?_, ?_, ?_, rfl, rfl⟩
  · intro title h
    simp [on_title_changed, vte_terminal_get_window_title, h]
  · intro h
    simp [on_title_changed, vte_terminal_get_window_title, h]
  · intro h
    simp [on_title_changed, vte_terminal_get_window_title, h]

/-- C6, instantiated: a terminal that reports the empty title gives the empty
window title, not the package name. -/
theorem on_title_changed_sets_title_witness :
    (on_title_changed sample_deps { font := none, window_title := some "" }).calls =
      [Call.gtk_window_set_title ""] :=
  (on_title_changed_sets_title sample_deps { font := none, window_title := some "" }).2.1 rfl

/-! ## Font size (`set_font_size` and the callbacks that use it) -/

theorem set_font_size_no_font (D : Deps) (terminal : VteTerminal) (delta : Int)
    (h : terminal.font = none) :
    set_font_size D terminal delta = { terminal := terminal, calls := [] } := by
  simp [set_font_size, pango_font_description_copy, vte_terminal_get_font, h]

theorem set_font_size_font (D : Deps) (terminal : VteTerminal) (delta : Int)
    (descr : PangoFontDescription) (h : terminal.font = some descr) :
    set_font_size D terminal delta =
      { terminal := { terminal with font := some { descr with
            size := gint_add descr.size (gint_mul delta D.PANGO_SCALE) } },
        calls := [Call.vte_terminal_set_font { descr with
            size := gint_add descr.size (gint_mul delta D.PANGO_SCALE) }] } := by
  simp [set_font_size, pango_font_description_copy, vte_terminal_get_font, h,
    pango_font_description_get_size, pango_font_description_set_size,
    vte_terminal_set_font]

theorem set_font_size_exact (D : Deps) (terminal : VteTerminal) (delta : Int)
    (descr : PangoFontDescription) (h : terminal.font = some descr)
    (h1 : is_gint (delta * D.PANGO_SCALE))
    (h2 : is_gint (descr.size + delta * D.PANGO_SCALE)) :
    set_font_size D terminal delta =
      { terminal := { terminal with font := some { descr with
            size := descr.size + delta * D.PANGO_SCALE } },
        calls := [Call.vte_terminal_set_font { descr with
            size := descr.size + delta * D.PANGO_SCALE }] } := by
  rw [set_font_size_font D terminal delta descr h]
  have e : gint_add descr.size (gint_mul delta D.PANGO_SCALE)
      = descr.size + delta * D.PANGO_SCALE := by
    unfold gint_add gint_mul
    rw [wrap_gint_of_is_gint _ h1, wrap_gint_of_is_gint _ h2]
  rw [e]

theorem set_font_size_zero (D : Deps) (terminal : VteTerminal)
    (hs : ∀ descr, terminal.font = some descr → is_gint descr.size) :
    set_font_size D terminal 0 =
      { terminal := terminal,
        calls := match terminal.font with
          | none => []
          | some descr => [Call.vte_terminal_set_font descr] } := by
  cases terminal with
  | mk font title =>
    cases font with
    | none => exact set_font_size_no_font D _ 0 rfl
    | some descr =>
      have h0 : is_gint (0 * D.PANGO_SCALE) := by
        rw [Int.zero_mul]; unfold is_gint; omega
      have h2 : is_gint (descr.size + 0 * D.PANGO_SCALE) := by
        rw [Int.zero_mul, Int.add_zero]; exact hs descr rfl
      rw [set_font_size_exact D _ 0 descr rfl h0 h2]
      simp

/-- C7: for every terminal whose font size, when it has a font, is a `gint`,
`on_dpi_changed` and `on_char_size_changed` do what `set_font_size` does with
delta 0: when the terminal has a font description they pass to
`vte_terminal_set_font` a description equal to the current one (size
`current + 0 * PANGO_SCALE = current`, every other attribute as it was) and
the terminal is the same afterwards; when it has none they make no call; both
return TRUE. -/
theorem font_callbacks_reapply_font (D : Deps) (terminal : VteTerminal)
    (width height : Nat)
    (hs : ∀ descr, terminal.font = some descr → is_gint descr.size) :
    on_dpi_changed D terminal =
        { terminal := (set_font_size D terminal 0).terminal,
          calls := (set_font_size D terminal 0).calls, ret := true }
      ∧ on_char_size_changed D terminal width height =
        { terminal := (set_font_size D terminal 0).terminal,
          calls := (set_font_size D terminal 0).calls, ret := true }
      ∧ (set_font_size D terminal 0).terminal = terminal
      ∧ (∀ descr, terminal.font = some descr →
          descr.size + 0 * D.PANGO_SCALE = descr.size
            ∧ (set_font_size D terminal 0).calls = [Call.vte_terminal_set_font descr])
      ∧ (terminal.font = none → (set_font_size D terminal 0).calls = []) := by
  refine ⟨rfl, rfl, ?_, ?_, ?_⟩
  · rw [set_font_size_zero D terminal hs]
  · intro descr h
    rw [set_font_size_zero D terminal hs]
    simp [h]
  · intro h
    rw [set_font_size_zero D terminal hs]
    simp [h]

/-- C7, instantiated: a DPI change on the sample terminal re-applies its font
and leaves the terminal as it was. -/
theorem font_callbacks_reapply_font_witness :
    (∀ descr, sample_terminal.font = some descr → is_gint descr.size)
      ∧ on_dpi_changed sample_deps sample_terminal =
        { terminal := sample_terminal,
          calls := [Call.vte_terminal_set_font sample_font], ret := true } := by
  have hs : ∀ descr, sample_terminal.font = some descr → is_gint descr.size := by
    intro descr h
    have e : descr = sample_font := by
      simp [sample_terminal] at h
      exact h.symm
    rw [e]
    decide
  have h := font_callbacks_reapply_font sample_deps sample_terminal 80 24 hs
  refine ⟨hs, ?_⟩
  rw [h.1, h.2.2.1, (h.2.2.2.1 sample_font rfl).2]

/-! ## Keyboard shortcuts (`on_key_press`) -/

theorem set_font_size_calls (D : Deps) (terminal : VteTerminal) (delta : Int) :
    ∀ c ∈ (set_font_size D terminal delta).calls, ∃ descr, c = Call.vte_terminal_set_font descr := by
  intro c hc
  cases hf : terminal.font with
  | none =>
    rw [set_font_size_no_font D terminal delta hf] at hc
    simp at hc
  | some descr =>
    rw [set_font_size_font D terminal delta descr hf] at hc
    simp at hc
    exact ⟨_, hc⟩

theorem reset_font_size_calls (D : Deps) (terminal : VteTerminal) :
    ∀ c ∈ (reset_font_size D terminal).calls,
      c = Call.vte_terminal_set_font_from_string D.TERM_FONT
        ∨ ∃ descr, c = Call.vte_terminal_set_font descr := by
  intro c hc
  simp only [reset_font_size, List.mem_cons] at hc
  rcases hc with h | h
  · exact Or.inl h
  · exact Or.inr (set_font_size_calls D _ 0 c h)

theorem on_key_press_cases (D : Deps) (terminal : VteTerminal) (event : GdkEventKey) :
    (event.state &&& D.GDK_CONTROL_MASK ≠ 0 → event.keyval = D.GDK_plus →
        on_key_press D terminal event =
          { terminal := (set_font_size D terminal 1).terminal,
            calls := (set_font_size D terminal 1).calls, ret := true })
      ∧ (event.state &&& D.GDK_CONTROL_MASK ≠ 0 → ¬ event.keyval = D.GDK_plus →
          event.keyval = D.GDK_minus →
        on_key_press D terminal event =
          { terminal := (set_font_size D terminal (-1)).terminal,
            calls := (set_font_size D terminal (-1)).calls, ret := true })
      ∧ (event.state &&& D.GDK_CONTROL_MASK ≠ 0 → ¬ event.keyval = D.GDK_plus →
          ¬ event.keyval = D.GDK_minus → event.keyval = D.GDK_equal →
        on_key_press D terminal event =
          { terminal := (reset_font_size D terminal).terminal,
            calls := (reset_font_size D terminal).calls, ret := true })
      ∧ (event.state &&& D.GDK_CONTROL_MASK ≠ 0 → ¬ event.keyval = D.GDK_plus →
          ¬ event.keyval = D.GDK_minus → ¬ event.keyval = D.GDK_equal →
        on_key_press D terminal event =
          { terminal := D.stop terminal, calls := [Call.dabbrev_stop], ret := false })
      ∧ (¬ (event.state &&& D.GDK_CONTROL_MASK ≠ 0) → event.state &&& D.GDK_MOD1_MASK ≠ 0 →
          event.keyval = D.GDK_slash →
        on_key_press D terminal event =
          { terminal := D.expand terminal, calls := [Call.dabbrev_expand], ret := true })
      ∧ (¬ (event.state &&& D.GDK_CONTROL_MASK ≠ 0) → event.state &&& D.GDK_MOD1_MASK ≠ 0 →
          ¬ event.keyval = D.GDK_slash →
        on_key_press D terminal event =
          { terminal := D.stop terminal, calls := [Call.dabbrev_stop], ret := false })
      ∧ (¬ (event.state &&& D.GDK_CONTROL_MASK ≠ 0) →
          ¬ (event.state &&& D.GDK_MOD1_MASK ≠ 0) →
        on_key_press D terminal event =
          { terminal := D.stop terminal, calls := [Call.dabbrev_stop], ret := false }) := by
  refine ⟨?_, ?_, ?_, ?_, ?_, ?_, ?_⟩
  · intro hc hp
    unfold on_key_press
    dsimp only
    rw [if_pos hc, if_pos hp]
  · intro hc hp hm
    unfold on_key_press
    dsimp only
    rw [if_pos hc, if_neg hp, if_pos hm]
  · intro hc hp hm he
    unfold on_key_press
    dsimp only
    rw [if_pos hc, if_neg hp, if_neg hm, if_pos he]
  · intro hc hp hm he
    unfold on_key_press
    dsimp only
    rw [if_pos hc, if_neg hp, if_neg hm, if_neg he]
  · intro hc ha hk
    unfold on_key_press
    dsimp only
    rw [if_neg hc, if_pos ha, if_pos hk]
  · intro hc ha hk
    unfold on_key_press
    dsimp only
    rw [if_neg hc, if_pos ha, if_neg hk]
  · intro hc ha
    unfold on_key_press
    dsimp only
    rw [if_neg hc, if_neg ha]

/-- C4: with the Control modifier set, key `plus` makes `on_key_press` do what
`set_font_size(terminal, 1)` does, key `minus` what `set_font_size(terminal,
-1)` does and key `equal` what `reset_font_size(terminal)` does (the three key
symbols being distinct case labels); with Alt set and Control not set, key
`slash` makes it call `dabbrev_expand`.  In each of the four cases nothing
else is called and TRUE is returned. -/
theorem on_key_press_chords (D : Deps) (terminal : VteTerminal) (event : GdkEventKey) :
    (event.state &&& D.GDK_CONTROL_MASK ≠ 0 → event.keyval = D.GDK_plus →
        on_key_press D terminal event =
          { terminal := (set_font_size D terminal 1).terminal,
            calls := (set_font_size D terminal 1).calls, ret := true })
      ∧ (event.state &&& D.GDK_CONTROL_MASK ≠ 0 → event.keyval = D.GDK_minus →
          D.GDK_minus ≠ D.GDK_plus →
        on_key_press D terminal event =
          { terminal := (set_font_size D terminal (-1)).terminal,
            calls := (set_font_size D terminal (-1)).calls, ret := true })
      ∧ (event.state &&& D.GDK_CONTROL_MASK ≠ 0 → event.keyval = D.GDK_equal →
          D.GDK_equal ≠ D.GDK_plus → D.GDK_equal ≠ D.GDK_minus →
        on_key_press D terminal event =
          { terminal := (reset_font_size D terminal).terminal,
            calls := (reset_font_size D terminal).calls, ret := true })
      ∧ (event.state &&& D.GDK_MOD1_MASK ≠ 0 → ¬ (event.state &&& D.GDK_CONTROL_MASK ≠ 0) →
          event.keyval = D.GDK_slash →
        on_key_press D terminal event =
          { terminal := D.expand terminal, calls := [Call.dabbrev_expand], ret := true }) := by
  have h := on_key_press_cases D terminal event
  refine ⟨h.1, ?_, ?_, ?_⟩
  · intro hc hk hne
    exact h.2.1 hc (fun hp => hne (hk.symm.trans hp)) hk
  · intro hc hk hne1 hne2
    exact h.2.2.1 hc (fun hp => hne1 (hk.symm.trans hp))
      (fun hm => hne2 (hk.symm.trans hm)) hk
  · intro ha hc hk
    exact h.2.2.2.2.1 hc ha hk

/-- C4, instantiated with the key symbols and masks of GDK: Control-minus on
the sample terminal shrinks the font by one point, and Alt-slash starts the
expansion. -/
theorem on_key_press_chords_witness :
    on_key_press sample_deps sample_terminal { state := 4, keyval := 0x2d } =
        { terminal := (set_font_size sample_deps sample_terminal (-1)).terminal,
          calls := (set_font_size sample_deps sample_terminal (-1)).calls, ret := true }
      ∧ on_key_press sample_deps sample_terminal { state := 8, keyval := 0x2f } =
        { terminal := sample_terminal, calls := [Call.dabbrev_expand], ret := true } :=
  ⟨(on_key_press_chords sample_deps sample_terminal { state := 4, keyval := 0x2d }).2.1
      (by decide) rfl (by decide),
   (on_key_press_chords sample_deps sample_terminal { state := 8, keyval := 0x2f }).2.2.2
      (by decide) (by decide) rfl⟩

/-- C5: `on_key_press` returns TRUE exactly when Control is set and the key is
`plus`, `minus` or `equal`, or Control is not set, Alt is set and the key is
`slash`.  Whenever it returns FALSE it has called `dabbrev_stop` once and
nothing else; `dabbrev_stop` is in the trace exactly when the result is FALSE.
`slash` with both Control and Alt set returns FALSE (the symbol of `slash`
being none of the three Control keys). -/
theorem on_key_press_result (D : Deps) (terminal : VteTerminal) (event : GdkEventKey) :
    ((on_key_press D terminal event).ret = true ↔
        (event.state &&& D.GDK_CONTROL_MASK ≠ 0
            ∧ (event.keyval = D.GDK_plus ∨ event.keyval = D.GDK_minus
                ∨ event.keyval = D.GDK_equal))
          ∨ (¬ (event.state &&& D.GDK_CONTROL_MASK ≠ 0)
            ∧ event.state &&& D.GDK_MOD1_MASK ≠ 0 ∧ event.keyval = D.GDK_slash))
      ∧ ((on_key_press D terminal event).ret = false →
          on_key_press D terminal event =
            { terminal := D.stop terminal, calls := [Call.dabbrev_stop], ret := false })
      ∧ (Call.dabbrev_stop ∈ (on_key_press D terminal event).calls ↔
          (on_key_press D terminal event).ret = false)
      ∧ (D.GDK_slash ≠ D.GDK_plus → D.GDK_slash ≠ D.GDK_minus → D.GDK_slash ≠ D.GDK_equal →
          event.state &&& D.GDK_CONTROL_MASK ≠ 0 → event.state &&& D.GDK_MOD1_MASK ≠ 0 →
          event.keyval = D.GDK_slash →
          on_key_press D terminal event =
            { terminal := D.stop terminal, calls := [Call.dabbrev_stop], ret := false }) := by
  have hsf : ∀ delta, Call.dabbrev_stop ∉ (set_font_size D terminal delta).calls := by
    intro delta hmem
    obtain ⟨descr, hd⟩ := set_font_size_calls D terminal delta _ hmem
    cases hd
  have hrf : Call.dabbrev_stop ∉ (reset_font_size D terminal).calls := by
    intro hmem
    rcases reset_font_size_calls D terminal _ hmem with h | ⟨descr, h⟩
    · cases h
    · cases h
  by_cases hc : event.state &&& D.GDK_CONTROL_MASK ≠ 0
  · by_cases hp : event.keyval = D.GDK_plus
    · have hv := (on_key_press_cases D terminal event).1 hc hp
      rw [hv]
      refine ⟨by simp [hc, hp], by simp, by simp [hsf], ?_⟩
      intro h1 _ _ _ _ h6
      exact absurd (h6.symm.trans hp) h1
    · by_cases hm : event.keyval = D.GDK_minus
      · have hv := (on_key_press_cases D terminal event).2.1 hc hp hm
        rw [hv]
        refine ⟨by simp [hc, hm], by simp, by simp [hsf], ?_⟩
        intro _ h2 _ _ _ h6
        exact absurd (h6.symm.trans hm) h2
      · by_cases he : event.keyval = D.GDK_equal
        · have hv := (on_key_press_cases D terminal event).2.2.1 hc hp hm he
          rw [hv]
          refine ⟨by simp [hc, he], by simp, by simp [hrf], ?_⟩
          intro _ _ h3 _ _ h6
          exact absurd (h6.symm.trans he) h3
        · have hv := (on_key_press_cases D terminal event).2.2.2.1 hc hp hm he
          rw [hv]
          refine ⟨by simp [hc, hp, hm, he], by simp, by simp, ?_⟩
          intro _ _ _ _ _ _
          rfl
  · by_cases ha : event.state &&& D.GDK_MOD1_MASK ≠ 0
    · by_cases hk : event.keyval = D.GDK_slash
      · have hv := (on_key_press_cases D terminal event).2.2.2.2.1 hc ha hk
        rw [hv]
        refine ⟨by simp [hc, ha, hk], by simp, by simp, ?_⟩
        intro _ _ _ h4 _ _
        exact absurd h4 hc
      · have hv := (on_key_press_cases D terminal event).2.2.2.2.2.1 hc ha hk
        rw [hv]
        refine ⟨by simp [hc, hk], by simp, by simp, ?_⟩
        intro _ _ _ _ _ _
        rfl
    · have hv := (on_key_press_cases D terminal event).2.2.2.2.2.2 hc ha
      rw [hv]
      refine ⟨by simp [hc, ha], by simp, by simp, ?_⟩
      intro _ _ _ _ _ _
      rfl

/-- C5, instantiated with the key symbols and masks of GDK: Control-Alt-slash
is passed on to the terminal after `dabbrev_stop`. -/
theorem on_key_press_result_witness :
    on_key_press sample_deps sample_terminal { state := 12, keyval := 0x2f } =
      { terminal := sample_terminal, calls := [Call.dabbrev_stop], ret := false } :=
  (on_key_press_result sample_deps sample_terminal { state := 12, keyval := 0x2f }).2.2.2
    (by decide) (by decide) (by decide) (by decide) (by decide) rfl

/-! ## Zooming in and out -/

theorem set_font_size_terminal (D : Deps) (terminal : VteTerminal) (delta : Int)
    (descr : PangoFontDescription) (h : terminal.font = some descr)
    (h1 : is_gint (delta * D.PANGO_SCALE))
    (h2 : is_gint (descr.size + delta * D.PANGO_SCALE)) :
    (set_font_size D terminal delta).terminal =
      { terminal with font := some { descr with
          size := descr.size + delta * D.PANGO_SCALE } } := by
  rw [set_font_size_exact D terminal delta descr h h1 h2]

theorem zoom_exact (D : Deps) (delta : Int) (h1 : is_gint (delta * D.PANGO_SCALE)) :
    ∀ (k : Nat) (terminal : VteTerminal) (descr : PangoFontDescription),
      terminal.font = some descr →
      (∀ j : Nat, j ≤ k → is_gint (descr.size + (j : Int) * (delta * D.PANGO_SCALE))) →
      zoom D delta k terminal =
        { terminal with font := some { descr with
            size := descr.size + (k : Int) * (delta * D.PANGO_SCALE) } } := by
  intro k
  induction k with
  | zero =>
    intro terminal descr hf _
    cases terminal with
    | mk font title =>
      cases descr
      simp only at hf
      simp [zoom, hf]
  | succ k ih =>
    intro terminal descr hf hr
    have hstep : is_gint (descr.size + delta * D.PANGO_SCALE) := by
      have := hr 1 (by omega)
      simpa using this
    unfold zoom
    rw [set_font_size_terminal D terminal delta descr hf h1 hstep]
    rw [ih _ { descr with size := descr.size + delta * D.PANGO_SCALE } rfl]
    · simp only [VteTerminal.mk.injEq, Option.some.injEq,
        PangoFontDescription.mk.injEq, true_and, and_true]
      push_cast
      ring
    · intro j hj
      have := hr (j + 1) (by omega)
      have e : descr.size + delta * D.PANGO_SCALE + (j : Int) * (delta * D.PANGO_SCALE)
          = descr.size + ((j + 1 : Nat) : Int) * (delta * D.PANGO_SCALE) := by
        push_cast
        ring
      simp only
      rw [e]
      exact this

/-- C10: for a terminal whose font description has size `s`, and absent
integer overflow, `set_font_size` with delta `d` sets a description of size
`s + d * PANGO_SCALE` that is otherwise the old one, and changes nothing else
of the terminal.  Hence delta +1 then delta -1, or -1 then +1, gives back the
terminal with size `s`; so does Control-plus followed by Control-minus; and so
do `k` calls with delta +1 followed by `k` calls with delta -1, for every
`k`. -/
theorem set_font_size_zoom (D : Deps) (terminal : VteTerminal)
    (descr : PangoFontDescription) (hf : terminal.font = some descr) :
    (∀ d : Int, is_gint (d * D.PANGO_SCALE) → is_gint (descr.size + d * D.PANGO_SCALE) →
        set_font_size D terminal d =
          { terminal := { terminal with font := some { descr with
                size := descr.size + d * D.PANGO_SCALE } },
            calls := [Call.vte_terminal_set_font { descr with
                size := descr.size + d * D.PANGO_SCALE }] })
      ∧ (is_gint D.PANGO_SCALE → is_gint (-D.PANGO_SCALE) →
          is_gint descr.size → is_gint (descr.size + D.PANGO_SCALE) →
          (set_font_size D (set_font_size D terminal 1).terminal (-1)).terminal = terminal)
      ∧ (is_gint D.PANGO_SCALE → is_gint (-D.PANGO_SCALE) →
          is_gint descr.size → is_gint (descr.size - D.PANGO_SCALE) →
          (set_font_size D (set_font_size D terminal (-1)).terminal 1).terminal = terminal)
      ∧ (∀ plus_event minus_event : GdkEventKey,
          plus_event.state &&& D.GDK_CONTROL_MASK ≠ 0 → plus_event.keyval = D.GDK_plus →
          minus_event.state &&& D.GDK_CONTROL_MASK ≠ 0 → minus_event.keyval = D.GDK_minus →
          D.GDK_minus ≠ D.GDK_plus →
          is_gint D.PANGO_SCALE → is_gint (-D.PANGO_SCALE) →
          is_gint descr.size → is_gint (descr.size + D.PANGO_SCALE) →
          (on_key_press D (on_key_press D terminal plus_event).terminal minus_event).terminal
            = terminal)
      ∧ (∀ k : Nat, is_gint D.PANGO_SCALE → is_gint (-D.PANGO_SCALE) →
          (∀ j : Nat, j ≤ k → is_gint (descr.size + (j : Int) * D.PANGO_SCALE)) →
          zoom D (-1) k (zoom D 1 k terminal) = terminal) := by
  have hback : ∀ x : Int, is_gint (-D.PANGO_SCALE) → is_gint descr.size →
      is_gint (descr.size + x) → is_gint x → x = D.PANGO_SCALE →
      (set_font_size D { terminal with font := some { descr with size := descr.size + x } }
        (-1)).terminal = terminal := by
    intro x hn hs _ _ hx
    subst hx
    rw [set_font_size_terminal D _ (-1) { descr with size := descr.size + D.PANGO_SCALE } rfl
      (by simpa using hn) (by simpa using hs)]
    cases terminal with
    | mk font title =>
      cases descr
      simp only at hf
      simp [hf]
  refine ⟨?_, ?_, ?_, ?_, ?_⟩
  · intro d h1 h2
    exact set_font_size_exact D terminal d descr hf h1 h2
  · intro hp hn hs h1
    rw [set_font_size_terminal D terminal 1 descr hf (by simpa using hp) (by simpa using h1)]
    simpa using hback D.PANGO_SCALE hn hs h1 hp rfl
  · intro hp hn hs h1
    have h1b : is_gint (descr.size + -1 * D.PANGO_SCALE) := by
      have e : descr.size + -1 * D.PANGO_SCALE = descr.size - D.PANGO_SCALE := by ring
      rw [e]; exact h1
    rw [set_font_size_terminal D terminal (-1) descr hf (by simpa using hn) h1b]
    rw [set_font_size_terminal D _ 1 { descr with size := descr.size + -1 * D.PANGO_SCALE } rfl
      (by simpa using hp) (by simpa using hs)]
    cases terminal with
    | mk font title =>
      cases descr
      simp only at hf
      simp [hf]
  · intro pe me hpc hpk hmc hmk hne hp hn hs h1
    rw [(on_key_press_cases D terminal pe).1 hpc hpk]
    rw [(on_key_press_cases D _ me).2.1 hmc (fun h => hne (hmk.symm.trans h)) hmk]
    simp only
    rw [set_font_size_terminal D terminal 1 descr hf (by simpa using hp) (by simpa using h1)]
    simpa using hback D.PANGO_SCALE hn hs h1 hp rfl
  · intro k hp hn hr
    rw [zoom_exact D 1 (by simpa using hp) k terminal descr hf (by simpa using hr)]
    rw [zoom_exact D (-1) (by simpa using hn) k _
      { descr with size := descr.size + (k : Int) * (1 * D.PANGO_SCALE) } rfl]
    · cases terminal with
      | mk font title =>
        cases descr
        simp only at hf
        simp [hf]
    · intro j hj
      have := hr (k - j) (by omega)
      have e : descr.size + (k : Int) * (1 * D.PANGO_SCALE) + (j : Int) * (-1 * D.PANGO_SCALE)
          = descr.size + ((k - j : Nat) : Int) * D.PANGO_SCALE := by
        rw [Nat.cast_sub hj]
        ring
      simp only
      rw [e]
      exact this

/-- C10, instantiated: on the sample terminal (size 10240, `PANGO_SCALE`
1024) delta 2 gives size 12288, and three zoom-ins followed by three zoom-outs
give back the terminal. -/
theorem set_font_size_zoom_witness :
    sample_terminal.font = some sample_font
      ∧ (set_font_size sample_deps sample_terminal 2).terminal.font =
          some { sample_font with size := 12288 }
      ∧ zoom sample_deps (-1) 3 (zoom sample_deps 1 3 sample_terminal) = sample_terminal := by
  have h := set_font_size_zoom sample_deps sample_terminal sample_font rfl
  refine ⟨rfl, ?_, ?_⟩
  · rw [h.1 2 (by decide) (by decide)]
    rfl
  · apply h.2.2.2.2 3 (by decide) (by decide)
    intro j hj
    have e : sample_font.size = 10240 := rfl
    have e2 : sample_deps.PANGO_SCALE = 1024 := rfl
    rw [e, e2]
    unfold is_gint
    omega

/-! ## The environment of the child -/

theorem store_next (done : List Slot) (free : Nat) (v : Slot) :
    store (done ++ List.replicate (free + 1) Slot.uninit) done.length v =
      some ((done ++ [v]) ++ List.replicate free Slot.uninit) := by
  unfold store
  have hlt : done.length < (done ++ List.replicate (free + 1) Slot.uninit).length := by
    simp
  rw [if_pos hlt, List.set_append]
  simp [List.replicate_succ]

theorem inherited_nil (getenv : String → Option String) : inherited getenv [] = [] := rfl

theorem inherited_colorterm (getenv : String → Option String) (ps : List String) :
    inherited getenv ("COLORTERM" :: ps) = inherited getenv ps := by
  simp [inherited]

theorem inherited_some (getenv : String → Option String) (p : String) (ps : List String)
    (value : String) (hp : p ≠ "COLORTERM") (hv : getenv p = some value) :
    inherited getenv (p :: ps) = (p ++ "=" ++ value) :: inherited getenv ps := by
  simp [inherited, hp, hv]

theorem inherited_none (getenv : String → Option String) (p : String) (ps : List String)
    (hp : p ≠ "COLORTERM") (hv : getenv p = none) :
    inherited getenv (p :: ps) = inherited getenv ps := by
  simp [inherited, hp, hv]

theorem inherited_length_le (getenv : String → Option String) (names : List String) :
    (inherited getenv names).length ≤ names.length := by
  unfold inherited
  exact le_trans (List.length_filterMap_le _ _) (List.length_filter_le _ _)

theorem copy_environment_eq (getenv : String → Option String) :
    ∀ (ps : List String) (done : List String) (free : Nat),
      (inherited getenv ps).length ≤ free →
      copy_environment getenv ps
          (done.length, done.map Slot.str ++ List.replicate free Slot.uninit) =
        some (done.length + (inherited getenv ps).length,
          (done ++ inherited getenv ps).map Slot.str ++
            List.replicate (free - (inherited getenv ps).length) Slot.uninit) := by
  intro ps
  induction ps with
  | nil =>
    intro done free _
    simp [copy_environment, inherited_nil]
  | cons p ps ih =>
    intro done free hfree
    by_cases hp : p = "COLORTERM"
    · subst hp
      rw [inherited_colorterm] at hfree ⊢
      unfold copy_environment
      rw [if_pos rfl]
      exact ih done free hfree
    · cases hv : getenv p with
      | none =>
        rw [inherited_none getenv p ps hp hv] at hfree ⊢
        unfold copy_environment
        rw [if_neg hp]
        simp only [hv]
        exact ih done free hfree
      | some value =>
        rw [inherited_some getenv p ps value hp hv] at hfree ⊢
        obtain ⟨free1, rfl⟩ : ∃ free1, free = free1 + 1 := by
          simp only [List.length_cons] at hfree
          exact ⟨free - 1, by omega⟩
        unfold copy_environment
        rw [if_neg hp]
        simp only [hv]
        have hst := store_next (done.map Slot.str) free1 (Slot.str (p ++ "=" ++ value))
        rw [List.length_map] at hst
        rw [hst]
        simp only
        have hlen : (inherited getenv ps).length ≤ free1 := by
          simp only [List.length_cons] at hfree
          omega
        have h := ih (done ++ [p ++ "=" ++ value]) free1 hlen
        simp only [List.length_append, List.length_singleton, List.map_append,
          List.map_cons, List.map_nil] at h
        rw [h]
        simp only [List.length_cons, List.map_append, List.map_cons, List.append_assoc,
          List.singleton_append, Nat.add_sub_add_right]
        congr 2
        omega

theorem get_child_environment_eq (D : Deps) (E : Environ) :
    get_child_environment D E =
      some ((forwarded E).map Slot.str ++
        Slot.str ("COLORTERM=" ++ D.PACKAGE_NAME) :: Slot.null ::
          List.replicate (E.names.length - (forwarded E).length) Slot.uninit) := by
  have hle : (inherited E.getenv E.names).length ≤ E.names.length :=
    inherited_length_le E.getenv E.names
  have hfw : forwarded E = inherited E.getenv E.names := rfl
  have hloop := copy_environment_eq E.getenv E.names [] (E.names.length + 2) (by omega)
  simp only [List.length_nil, List.map_nil, List.nil_append, Nat.zero_add] at hloop
  unfold get_child_environment g_new
  simp only
  rw [hloop]
  simp only
  obtain ⟨rest, hrest⟩ : ∃ rest, E.names.length = (inherited E.getenv E.names).length + rest :=
    ⟨E.names.length - (inherited E.getenv E.names).length, by omega⟩
  have e1 : E.names.length + 2 - (inherited E.getenv E.names).length = (rest + 1) + 1 := by
    omega
  have e2 : E.names.length - (inherited E.getenv E.names).length = rest := by omega
  rw [hfw, e1, e2]
  have hst1 := store_next ((inherited E.getenv E.names).map Slot.str) (rest + 1)
    (Slot.str ("COLORTERM=" ++ D.PACKAGE_NAME))
  rw [List.length_map] at hst1
  rw [hst1]
  simp only
  have hst2 := store_next ((inherited E.getenv E.names).map Slot.str ++
    [Slot.str ("COLORTERM=" ++ D.PACKAGE_NAME)]) rest Slot.null
  simp only [List.length_append, List.length_map, List.length_singleton] at hst2
  rw [hst2]
  simp

theorem strv_strings (l : List String) (rest : List Slot) :
    strv (l.map Slot.str ++ Slot.null :: rest) = some l := by
  induction l with
  | nil => simp [strv]
  | cons a l ih => simp [strv, ih]

theorem strv_get_child_environment (D : Deps) (E : Environ) :
    ∃ result, get_child_environment D E = some result
      ∧ strv result = some (forwarded E ++ ["COLORTERM=" ++ D.PACKAGE_NAME]) := by
  refine ⟨_, get_child_environment_eq D E, ?_⟩
  have h := strv_strings (forwarded E ++ ["COLORTERM=" ++ D.PACKAGE_NAME])
    (List.replicate (E.names.length - (forwarded E).length) Slot.uninit)
  simpa using h

/-- C2: for every parent environment, `get_child_environment` returns a
`NULL`-terminated array whose entries, without the final one, are exactly the
strings `name=value` for each listed name that is not `COLORTERM` and whose
lookup succeeds, in listing order. -/
theorem get_child_environment_forwards (D : Deps) (E : Environ) :
    ∃ result entries, get_child_environment D E = some result
      ∧ strv result = some entries
      ∧ entries.dropLast = forwarded E := by
  obtain ⟨result, h1, h2⟩ := strv_get_child_environment D E
  exact ⟨result, _, h1, h2, List.dropLast_concat⟩

theorem takeWhile_before_equals (name rest : List Char) (h : '=' ∉ name) :
    (name ++ '=' :: rest).takeWhile (fun c => c != '=') = name := by
  induction name with
  | nil => simp
  | cons c cs ih =>
    have hc : c ≠ '=' := fun e => h (by simp [e])
    have hcs : '=' ∉ cs := fun e => h (by simp [e])
    simp [List.takeWhile_cons, hc, ih hcs]

theorem entry_name_concat (name value : String) (h : '=' ∉ name.data) :
    entry_name (name ++ "=" ++ value) = name := by
  unfold entry_name
  have e : (name ++ "=" ++ value).data = name.data ++ '=' :: value.data := by
    simp [String.data_append]
  rw [e, takeWhile_before_equals name.data value.data h]

theorem entry_name_colorterm (package_name : String) :
    entry_name ("COLORTERM=" ++ package_name) = "COLORTERM" := by
  have e : "COLORTERM=" ++ package_name = "COLORTERM" ++ "=" ++ package_name := by
    have e1 : "COLORTERM=" = "COLORTERM" ++ "=" := by decide
    rw [e1]
  rw [e]
  exact entry_name_concat "COLORTERM" package_name (by decide)

theorem inherited_entry_name (getenv : String → Option String) (names : List String)
    (h : ∀ p ∈ names, '=' ∉ p.data) :
    ∀ entry ∈ inherited getenv names, entry_name entry ≠ "COLORTERM" := by
  intro entry hmem
  unfold inherited at hmem
  rw [List.mem_filterMap] at hmem
  obtain ⟨p, hp, hentry⟩ := hmem
  rw [List.mem_filter] at hp
  obtain ⟨hin, hne⟩ := hp
  cases hv : getenv p with
  | none => simp [hv] at hentry
  | some value =>
    simp only [hv, Option.map_some', Option.some.injEq] at hentry
    rw [← hentry, entry_name_concat p value (h p hin)]
    simpa using hne

theorem inherited_without_colorterm (getenv : String → Option String)
    (value : Option String) (names : List String) :
    inherited (fun p => if p = "COLORTERM" then value else getenv p) names =
      inherited getenv names := by
  induction names with
  | nil => rfl
  | cons p ps ih =>
    by_cases hp : p = "COLORTERM"
    · subst hp
      rw [inherited_colorterm, inherited_colorterm, ih]
    · cases hv : getenv p with
      | none =>
        rw [inherited_none getenv p ps hp hv,
          inherited_none _ p ps hp (by simp [hp, hv]), ih]
      | some v =>
        rw [inherited_some getenv p ps v hp hv,
          inherited_some _ p ps v hp (by simp [hp, hv]), ih]

/-- C3: for every parent environment whose variable names contain no `=`,
whether or not `COLORTERM` is set in it, the array of `get_child_environment`
has exactly one entry whose name is `COLORTERM`; it is the last entry before
the terminator and is `COLORTERM=` followed by `PACKAGE_NAME`; the array does
not depend on the value `COLORTERM` has in the parent. -/
theorem get_child_environment_colorterm (D : Deps) (E : Environ)
    (hnames : ∀ p ∈ E.names, '=' ∉ p.data) :
    ∃ result entries, get_child_environment D E = some result
      ∧ strv result = some entries
      ∧ entries.filter (fun entry => entry_name entry = "COLORTERM") =
          ["COLORTERM=" ++ D.PACKAGE_NAME]
      ∧ entries.getLast? = some ("COLORTERM=" ++ D.PACKAGE_NAME)
      ∧ ∀ value : Option String,
          get_child_environment D
              { names := E.names,
                getenv := fun p => if p = "COLORTERM" then value else E.getenv p } =
            some result := by
  obtain ⟨result, h1, h2⟩ := strv_get_child_environment D E
  refine ⟨result, _, h1, h2, ?_, List.getLast?_concat _, ?_⟩
  · rw [List.filter_append]
    have hnone : (forwarded E).filter (fun entry => entry_name entry = "COLORTERM") = [] := by
      rw [List.filter_eq_nil_iff]
      intro entry hmem
      simpa using inherited_entry_name E.getenv E.names hnames entry hmem
    rw [hnone]
    simp [entry_name_colorterm]
  · intro value
    rw [← h1, get_child_environment_eq, get_child_environment_eq]
    have e := inherited_without_colorterm E.getenv value E.names
    unfold forwarded
    unfold inherited at e
    simp only
    rw [e]

/-- C3, instantiated: the sample environment sets `COLORTERM=xterm`; the child
gets `COLORTERM=vbeterm` as its last entry and no other `COLORTERM` entry. -/
theorem get_child_environment_colorterm_witness :
    (∀ p ∈ sample_environ.names, '=' ∉ p.data)
      ∧ sample_environ.getenv "COLORTERM" = some "xterm"
      ∧ ∃ result entries, get_child_environment sample_deps sample_environ = some result
          ∧ strv result = some entries
          ∧ entries.filter (fun entry => entry_name entry = "COLORTERM") =
              ["COLORTERM=vbeterm"] := by
  have hn : ∀ p ∈ sample_environ.names, '=' ∉ p.data := by decide
  obtain ⟨result, entries, h1, h2, h3, _, _⟩ :=
    get_child_environment_colorterm sample_deps sample_environ hn
  exact ⟨hn, rfl, result, entries, h1, h2, h3⟩

/-- C9: `get_child_environment` allocates `n + 2` cells, `n` being the number
of listed names, and no write falls outside them (the run yields an array).
With `m` the number of forwarded entries, `m ≤ n`: cells `0 .. m - 1` hold the
forwarded entries, cell `m` the `COLORTERM` entry and cell `m + 1 < n + 2` the
`NULL` terminator, so there are at most `n + 1` entries before the
terminator. -/
theorem get_child_environment_bounds (D : Deps) (E : Environ) :
    ∃ (result : List Slot) (m : Nat), get_child_environment D E = some result
      ∧ result.length = E.names.length + 2
      ∧ m ≤ E.names.length
      ∧ m + 1 < E.names.length + 2
      ∧ (∀ i, i < m → ∃ entry, result[i]? = some (Slot.str entry))
      ∧ result[m]? = some (Slot.str ("COLORTERM=" ++ D.PACKAGE_NAME))
      ∧ result[m + 1]? = some Slot.null
      ∧ ∃ entries, strv result = some entries ∧ entries.length = m + 1 := by
  have hle : (forwarded E).length ≤ E.names.length := inherited_length_le E.getenv E.names
  refine ⟨_, (forwarded E).length, get_child_environment_eq D E, ?_, hle, by omega,
    ?_, ?_, ?_, ?_⟩
  · simp
    omega
  · intro i hi
    have hi2 : i < ((forwarded E).map Slot.str).length := by simpa using hi
    rw [List.getElem?_append_left hi2, List.getElem?_map,
      List.getElem?_eq_getElem hi]
    exact ⟨_, rfl⟩
  · rw [List.getElem?_append_right (by simp)]
    simp
  · rw [List.getElem?_append_right (by simp)]
    simp
  · obtain ⟨result, h1, h2⟩ := strv_get_child_environment D E
    rw [get_child_environment_eq] at h1
    cases h1
    exact ⟨_, h2, by simp⟩

end Vbeterm
